import Mathlib

/-!
# Identity gateway and server assembly

A shallow embedding of `src/server.js` and `src/User/UserFunctions.js`.

JavaScript values are a small tree-shaped datatype, objects are ordered
field lists, a promise is represented by the way it settles, and each
operation returns a `Run`: the settlement of the promise handed to the
caller together with the provider calls it issued, the lines it logged and
the rejections nobody handled.
-/

set_option autoImplicit false

namespace IdentityGateway

/-! ## JavaScript values -/

/-- The JavaScript values that requests, provider records and results are made of.
Numbers are the integral ones; no operation here does arithmetic. -/
inductive JsVal where
  | undefined
  | null
  | bool (b : Bool)
  | num (n : Int)
  | str (s : String)
  | obj (fields : List (String × JsVal))

/-- An object: its own properties, in insertion order. -/
abbrev JsObj := List (String × JsVal)

/-- Property read `o.k` on an object: the first property named `k`, else `undefined`. -/
def getField : JsObj → String → JsVal
  | [], _ => .undefined
  | (k', v) :: rest, k => if k' = k then v else getField rest k

/-- Property write `o.k = v` on an object: overwrite in place, else append. -/
def setField : JsObj → String → JsVal → JsObj
  | [], k, v => [(k, v)]
  | (k', v') :: rest, k, v =>
    if k' = k then (k, v) :: rest else (k', v') :: setField rest k v

/-- Whether an object has an own property named `k`. -/
def hasField : JsObj → String → Bool
  | [], _ => false
  | (k', _) :: rest, k => if k' = k then true else hasField rest k

/-- JavaScript truthiness (`ToBoolean`). -/
def JsVal.truthy : JsVal → Bool
  | .undefined => false
  | .null => false
  | .bool b => b
  | .num n => n != 0
  | .str s => s != ""
  | .obj _ => true

/-- The operator `a || b`: `a` when it is truthy, else `b`. -/
def JsVal.or (a b : JsVal) : JsVal :=
  if a.truthy then a else b

/-- Strict comparison `v === "lit"` against a string literal, as a `switch` case does. -/
def JsVal.strictEqStr : JsVal → String → Bool
  | .str s, lit => s == lit
  | _, _ => false

/-- String conversion inside a template literal. -/
def JsVal.toTemplateString : JsVal → String
  | .undefined => "undefined"
  | .null => "null"
  | .bool b => if b then "true" else "false"
  | .num n => toString n
  | .str s => s
  | .obj _ => "[object Object]"

/-! ## `src/server.js` -/

/-- The newline character, the replacement string of the private-key `replace`. -/
def lineFeed : Char := '\n'

/-- The two characters the pattern `/\\n/g` matches: a backslash, then the letter n. -/
def escapedNewline : List Char := ['\\', 'n']

/-- The call `.replace(/\\n/g, '\n')` of `server.js` on the characters of a string:
scanning from the left, every match of backslash-n is replaced by a line feed and the
scan resumes after the match. -/
def unescapeNewlines : List Char → List Char
  | [] => []
  | [c] => [c]
  | c :: d :: rest =>
    if c = '\\' ∧ d = 'n' then lineFeed :: unescapeNewlines rest
    else c :: unescapeNewlines (d :: rest)

/-- The `privateKey` handed to `firebaseAdmin.credential.cert`, from the value of
`FIREBASE_ADMIN_PRIVATE_KEY`. -/
def privateKey (k : String) : String :=
  String.mk (unescapeNewlines k.data)

/-- The process environment: the variables that are set, with their values. -/
abbrev ProcessEnv := List (String × String)

/-- Reading `process.env.NAME`: the string when the variable is set, else `undefined`. -/
def envGet : ProcessEnv → String → JsVal
  | [], _ => .undefined
  | (k, v) :: rest, name => if k = name then .str v else envGet rest name

/-- An HTTP response under construction. -/
structure Response where
  statusCode : Nat
  body : Option JsVal

/-- The response object a handler receives: Node starts it with status code 200. -/
def Response.fresh : Response :=
  { statusCode := 200, body := none }

/-- The call `res.json(body)`: sends `body` with the status code the response has. -/
def Response.json (res : Response) (body : JsVal) : Response :=
  { res with body := some body }

/-- The handler of `app.get('/')`. -/
def homepage (env : ProcessEnv) (res : Response) : Response :=
  let target := JsVal.or (envGet env "NODE_ENV") (.str "not yet set")
  res.json (.obj [("message", .str ("Hello " ++ target.toTemplateString ++ " world!"))])

/-! ## `src/User/UserFunctions.js` -/

/-- How a promise settles: fulfilled with a value, or rejected with an error object. -/
inductive Settled (α : Type) where
  | resolved (value : α)
  | rejected (error : JsObj)

/-- The identity provider behind the two Firebase SDKs. Every call returns a promise;
a call that fails is a promise that rejects with an error object, an instance of `Error`
given by its own properties, which may or may not include a `code`. -/
structure Provider where
  /-- The admin call `auth().createUser(properties)`. -/
  createUser : JsObj → Settled JsObj
  /-- The admin call `auth().setCustomUserClaims(uid, claims)`. -/
  setCustomUserClaims : JsVal → JsObj → Settled Unit
  /-- The client call `signInWithEmailAndPassword(auth, email, password)`. -/
  signInWithEmailAndPassword : JsVal → JsVal → Settled JsObj
  /-- The method `user.getIdTokenResult(forceRefresh)` of a signed-in user. -/
  getIdTokenResult : JsObj → Bool → Settled JsObj
  /-- The admin call `auth().verifyIdToken(idToken, checkRevoked)`. -/
  verifyIdToken : JsVal → Bool → Settled JsObj

/-- A call issued to the provider, with its arguments. -/
inductive Call where
  | createUser (properties : JsObj)
  | setCustomUserClaims (uid : JsVal) (claims : JsObj)
  | signInWithEmailAndPassword (email password : JsVal)
  | getIdTokenResult (user : JsObj) (forceRefresh : Bool)
  | verifyIdToken (idToken : JsVal) (checkRevoked : Bool)

/-- A piece of a console line: a string, or a value that the console renders or that
`JSON.stringify` serialises. -/
inductive LogPart where
  | text (s : String)
  | value (v : JsVal)

/-- What one call of an operation does: how the promise it returns settles, the
provider calls it issues, the console lines it writes and the rejected promises
that nothing handles. -/
structure Run where
  result : Settled JsVal
  calls : List Call
  logs : List (List LogPart)
  unhandled : List JsObj

/-- An error object made by the JavaScript runtime; it has no `code` property. -/
def runtimeError (name message : String) : JsObj :=
  [("name", .str name), ("message", .str message)]

/-- The TypeError of converting to a primitive an object none of whose `toString` and
`valueOf` yields one. -/
def conversionError : JsObj :=
  runtimeError "TypeError" "Cannot convert object to primitive value"

/-- The conversion `ToString` that a template literal applies to `${v}`. It can throw:
properties here are data, never functions, so an object with an own property `toString`
has that method shadowed by something not callable, and its `valueOf` (own and not
callable, or inherited and returning the object) yields no primitive either. An object
without an own `toString` inherits the one of `Object.prototype`. -/
def JsVal.templateString : JsVal → Except JsObj String
  | .obj fields =>
    if hasField fields "toString" then .error conversionError
    else .ok (JsVal.obj fields).toTemplateString
  | v => .ok v.toTemplateString

/-- A property of an error as `Error.prototype.toString` reads it: the default when it
is undefined, else its `ToString`. -/
def errorPartString (part : JsVal) (default : String) : Except JsObj String :=
  match part with
  | .undefined => .ok default
  | part => part.templateString

/-- The conversion of an error object in `"text" + errorObj`. Error objects are
instances of `Error` whose own properties are the listed ones. `valueOf` yields no
primitive; an own `toString` is not callable, which leaves no conversion; otherwise
`Error.prototype.toString` runs: the name (`"Error"` when undefined) and the message
(empty when undefined), each converted by `ToString`, joined by a colon and a space
unless one of them is empty. -/
def errorToString (errorObj : JsObj) : Except JsObj String :=
  if hasField errorObj "toString" then .error conversionError
  else
    match errorPartString (getField errorObj "name") "Error" with
    | .error thrown => .error thrown
    | .ok name =>
      match errorPartString (getField errorObj "message") "" with
      | .error thrown => .error thrown
      | .ok msg =>
        .ok (if name = "" then msg else if msg = "" then name else name ++ ": " ++ msg)

/-- Loose comparison `v == "lit"` against a string literal that is not numeric. A string
is equal when it is the same string; an object is first converted to a primitive, which
throws when it has an own `toString` and gives `"[object Object]"` otherwise; a number,
a boolean, `null` and `undefined` are not equal to such a literal. -/
def JsVal.looseEqStr : JsVal → String → Except JsObj Bool
  | .str s, lit => .ok (s == lit)
  | .obj fields, lit =>
    if hasField fields "toString" then .error conversionError
    else .ok ((JsVal.obj fields).toTemplateString == lit)
  | _, _ => .ok false

/-- The error of evaluating an identifier that no scope binds. -/
def referenceError (identifier : String) : JsObj :=
  runtimeError "ReferenceError" (identifier ++ " is not defined")

/-- The identifiers bound at the top level of `UserFunctions.js` (lines 2 to 14 and
the three function declarations), and the Node globals its functions use. -/
def moduleBindings : List String :=
  ["admin", "firebaseClientConfig", "firebase", "getAuth", "signInWithEmailAndPassword",
   "firebaseAuthInstance", "signUpUser", "signInUser", "validateUserSession",
   "require", "module", "console", "JSON"]

/-- The object literal `signUpUser` passes to `createUser`. -/
def createUserProperties (userDetails : JsObj) : JsObj :=
  [("email", getField userDetails "email"),
   ("emailVerified", .bool false),
   ("password", getField userDetails "password"),
   ("displayName", getField userDetails "displayName"),
   ("disabled", .bool false)]

/-- The body of `signUpUser`, with the identifiers in `scope` bound. The promise of the
claim assignment is neither awaited nor returned: when it rejects, or when the template
literal of its `then` callback throws, the rejection is handled by nothing. -/
def signUpUserIn (scope : List String) (sdk : Provider) (userDetails : JsObj) : Run :=
  if "admin" ∈ scope then
    let properties := createUserProperties userDetails
    match sdk.createUser properties with
    | .resolved created =>
      let userRecord := setField created "accountLocale"
        (JsVal.or (getField userDetails "accountLocale") (.str "en"))
      let rawLine := [LogPart.text "User record raw is \n", LogPart.value (.obj userRecord)]
      let uid := getField userRecord "uid"
      let claims : JsObj := [("regularUser", .bool true)]
      match sdk.setCustomUserClaims uid claims with
      | .resolved _ =>
        match (getField userRecord "email").templateString with
        | .ok email =>
          { result := .resolved (.obj userRecord)
            calls := [.createUser properties, .setCustomUserClaims uid claims]
            logs := [rawLine,
              [.text ("Set a regularUser claim to the new user with email of " ++ email ++
                "! They must log in again to get the new access.")]]
            unhandled := [] }
        | .error thrown =>
          { result := .resolved (.obj userRecord)
            calls := [.createUser properties, .setCustomUserClaims uid claims]
            logs := [rawLine]
            unhandled := [thrown] }
      | .rejected claimError =>
        { result := .resolved (.obj userRecord)
          calls := [.createUser properties, .setCustomUserClaims uid claims]
          logs := [rawLine]
          unhandled := [claimError] }
    | .rejected error =>
      { result := .resolved (.obj [("error", .obj error)])
        calls := [.createUser properties]
        logs := [[.value (.obj error)]]
        unhandled := [] }
  else
    { result := .rejected (referenceError "admin"), calls := [], logs := [], unhandled := [] }

/-- The function `signUpUser` of `UserFunctions.js`. -/
def signUpUser (sdk : Provider) (userDetails : JsObj) : Run :=
  signUpUserIn moduleBindings sdk userDetails

/-- The string that line 69 builds for `console.error`: the template literal with
`${userDetails.email}`, then `+ errorObj`. Either conversion can throw. -/
def signInLogText (userDetails errorObj : JsObj) : Except JsObj String :=
  match (getField userDetails "email").templateString with
  | .error thrown => .error thrown
  | .ok email =>
    match errorToString errorObj with
    | .error thrown => .error thrown
    | .ok error => .ok ("User " ++ email ++ " failed sign in: " ++ error)

/-- The `catch (errorObj)` block of `signInUser`: how it completes and the line logged.
In the default branch the log line is built before the `return`; when building it
throws, the error leaves the `catch` block and nothing is logged. -/
def signInCatch (userDetails errorObj : JsObj) : Settled JsVal × List (List LogPart) :=
  let code := getField errorObj "code"
  if code.strictEqStr "auth/invalid-email" || code.strictEqStr "auth/wrong-password" then
    (.resolved (.obj [("error", .str "Incorrect sign-in information provided.")]), [])
  else
    match signInLogText userDetails errorObj with
    | .ok line =>
      (.resolved (.obj [("error", .str "Sign In Failed For Some Uncaught Reason"),
         ("errorRaw", .obj errorObj)]),
       [[.text line]])
    | .error thrown => (.rejected thrown, [])

/-- The `try` block of `signInUser`: the value it returns or the error it throws,
with the provider calls issued on the way. Calling `getIdTokenResult` on a `user` that
is not an object throws a TypeError. -/
def signInTry (scope : List String) (sdk : Provider) (userDetails : JsObj) :
    Settled JsVal × List Call :=
  if "signInWithEmailAndPassword" ∈ scope then
    if "firebaseAuthInstance" ∈ scope then
      let email := getField userDetails "email"
      let password := getField userDetails "password"
      match sdk.signInWithEmailAndPassword email password with
      | .resolved signedInUserCred =>
        match getField signedInUserCred "user" with
        | .obj user =>
          match sdk.getIdTokenResult user false with
          | .resolved userIdToken =>
            (.resolved (.obj
              [("idToken", getField userIdToken "token"),
               ("refreshToken", getField user "refreshToken"),
               ("email", getField user "email"),
               ("emailVerified", getField user "emailVerified"),
               ("displayName", getField user "displayName"),
               ("photoURL", getField user "photoURL"),
               ("uid", getField user "uid")]),
             [.signInWithEmailAndPassword email password, .getIdTokenResult user false])
          | .rejected e =>
            (.rejected e,
             [.signInWithEmailAndPassword email password, .getIdTokenResult user false])
        | .undefined =>
          (.rejected (runtimeError "TypeError"
            "Cannot read properties of undefined (reading 'getIdTokenResult')"),
           [.signInWithEmailAndPassword email password])
        | .null =>
          (.rejected (runtimeError "TypeError"
            "Cannot read properties of null (reading 'getIdTokenResult')"),
           [.signInWithEmailAndPassword email password])
        | _ =>
          (.rejected (runtimeError "TypeError"
            "signedInUserCred.user.getIdTokenResult is not a function"),
           [.signInWithEmailAndPassword email password])
      | .rejected e => (.rejected e, [.signInWithEmailAndPassword email password])
    else
      (.rejected (referenceError "firebaseAuthInstance"), [])
  else
    (.rejected (referenceError "signInWithEmailAndPassword"), [])

/-- The body of `signInUser`, with the identifiers in `scope` bound: what the `try`
block returns, or else how the `catch` block completes; an error thrown inside the
`catch` block rejects the promise of the async function. -/
def signInUserIn (scope : List String) (sdk : Provider) (userDetails : JsObj) : Run :=
  match signInTry scope sdk userDetails with
  | (.resolved credentials, calls) =>
    { result := .resolved credentials, calls := calls, logs := [], unhandled := [] }
  | (.rejected errorObj, calls) =>
    { result := (signInCatch userDetails errorObj).1
      calls := calls
      logs := (signInCatch userDetails errorObj).2
      unhandled := [] }

/-- The function `signInUser` of `UserFunctions.js`. -/
def signInUser (sdk : Provider) (userDetails : JsObj) : Run :=
  signInUserIn moduleBindings sdk userDetails

/-- The body of `validateUserSession`, with the identifiers in `scope` bound. Its
provider handle is the identifier `firebaseAdmin`; the request's `refreshToken` is read
into a local that is not used. In the `catch` callback the comparison of the code and
the `+ error` of the log line can throw, which rejects the promise. -/
def validateUserSessionIn (scope : List String) (sdk : Provider) (sessionDetails : JsObj) :
    Run :=
  let userIdToken := getField sessionDetails "idToken"
  if "firebaseAdmin" ∈ scope then
    match sdk.verifyIdToken userIdToken true with
    | .resolved decodedToken =>
      { result := .resolved (.obj
          [("isValid", .bool true),
           ("uid", getField decodedToken "uid"),
           ("fullDecodedToken", .obj decodedToken)])
        calls := [.verifyIdToken userIdToken true]
        logs := [[.text "Decoded session token is ", .value (.obj decodedToken)]]
        unhandled := [] }
    | .rejected error =>
      match (getField error "code").looseEqStr "auth/id-token-revoked" with
      | .error thrown =>
        { result := .rejected thrown
          calls := [.verifyIdToken userIdToken true], logs := [], unhandled := [] }
      | .ok revoked =>
        match errorToString error with
        | .error thrown =>
          { result := .rejected thrown
            calls := [.verifyIdToken userIdToken true], logs := [], unhandled := [] }
        | .ok text =>
          { result := .resolved (.obj [("error", .obj error)])
            calls := [.verifyIdToken userIdToken true]
            logs :=
              if revoked then
                [[.text ("You must sign in again to access this. Full error is: \n" ++ text)]]
              else
                [[.text ("Session token is invalid. Full error is: \n" ++ text)]]
            unhandled := [] }
  else
    { result := .rejected (referenceError "firebaseAdmin")
      calls := [], logs := [], unhandled := [] }

/-- The function `validateUserSession` of `UserFunctions.js`. -/
def validateUserSession (sdk : Provider) (sessionDetails : JsObj) : Run :=
  validateUserSessionIn moduleBindings sdk sessionDetails

/-! ## Sample inputs -/

/-- A provider account as `createUser` returns it. -/
def sampleRecord : JsObj :=
  [("uid", .str "u1"), ("email", .str "ada@example.com"), ("emailVerified", .bool false),
   ("displayName", .str "Ada"), ("disabled", .bool false)]

/-- A decoded ID token. -/
def sampleToken : JsObj :=
  [("uid", .str "u1"), ("email", .str "ada@example.com")]

/-- A provider error with the given `code`. -/
def codedError (code : String) : JsObj :=
  [("code", .str code), ("message", .str "rejected by the provider")]

/-- A provider error without a `code`. -/
def uncodedError : JsObj :=
  [("message", .str "network request failed")]

/-- A provider on which every call succeeds. -/
def acceptingProvider : Provider where
  createUser := fun _ => .resolved sampleRecord
  setCustomUserClaims := fun _ _ => .resolved ()
  signInWithEmailAndPassword := fun _ _ =>
    .resolved [("user", .obj (("refreshToken", .str "r1") :: sampleRecord))]
  getIdTokenResult := fun _ _ => .resolved [("token", .str "t1")]
  verifyIdToken := fun _ _ => .resolved sampleToken

/-- A provider on which every call fails with the error `e`. -/
def failingProvider (e : JsObj) : Provider where
  createUser := fun _ => .rejected e
  setCustomUserClaims := fun _ _ => .rejected e
  signInWithEmailAndPassword := fun _ _ => .rejected e
  getIdTokenResult := fun _ _ => .rejected e
  verifyIdToken := fun _ _ => .rejected e

/-- A registration request; `accountLocale` is left out when `locale` is `none`. -/
def sampleRegistration (locale : Option String) : JsObj :=
  [("email", .str "ada@example.com"), ("password", .str "correct horse"),
   ("displayName", .str "Ada")] ++
  (match locale with
   | some l => [("accountLocale", .str l)]
   | none => [])

/-- A sign-in request. -/
def sampleSignIn : JsObj :=
  [("email", .str "ada@example.com"), ("password", .str "correct horse")]

/-- A sign-in request, as a JSON body can carry it, whose `email` is an object with an
own property `toString`. -/
def unprintableSignIn : JsObj :=
  [("email", .obj [("toString", .num 0)]), ("password", .str "correct horse")]

/-- A session-validation request. -/
def sampleSession : JsObj :=
  [("idToken", .str "t1"), ("refreshToken", .str "r1")]

/-! ## Lemmas on objects -/

theorem getField_setField_same (o : JsObj) (k : String) (v : JsVal) :
    getField (setField o k v) k = v := by
  induction o with
  | nil => simp [setField, getField]
  | cons p rest ih =>
    obtain ⟨k', v'⟩ := p
    by_cases h : k' = k
    · simp [setField, getField, h]
    · simp [setField, getField, h, ih]

theorem getField_setField_other (o : JsObj) (k k2 : String) (v : JsVal) (hk : k2 ≠ k) :
    getField (setField o k v) k2 = getField o k2 := by
  induction o with
  | nil => simp [setField, getField, hk.symm]
  | cons p rest ih =>
    obtain ⟨k', v'⟩ := p
    by_cases h : k' = k
    · subst h
      simp [setField, getField, hk.symm]
    · simp [setField, getField, h, ih]

theorem hasField_setField_same (o : JsObj) (k : String) (v : JsVal) :
    hasField (setField o k v) k = true := by
  induction o with
  | nil => simp [setField, hasField]
  | cons p rest ih =>
    obtain ⟨k', v'⟩ := p
    by_cases h : k' = k
    · simp [setField, hasField, h]
    · simp [setField, hasField, h, ih]

theorem envGet_cases (env : ProcessEnv) (name : String) :
    envGet env name = .undefined ∨ ∃ v, envGet env name = .str v := by
  induction env with
  | nil => exact Or.inl rfl
  | cons p rest ih =>
    obtain ⟨k, v⟩ := p
    by_cases h : k = name
    · exact Or.inr ⟨v, by simp [envGet, h]⟩
    · simpa [envGet, h] using ih

/-! ## Lemmas on un-escaping -/

theorem intercalate_single (sep s : List Char) : List.intercalate sep [s] = s := by
  simp [List.intercalate, List.intersperse]

theorem intercalate_cons_cons (sep s t : List Char) (ss : List (List Char)) :
    List.intercalate sep (s :: t :: ss) = s ++ sep ++ List.intercalate sep (t :: ss) := by
  simp [List.intercalate, List.intersperse]

theorem escaped_infix_nil : ¬ escapedNewline <:+: ([] : List Char) := by
  simp [escapedNewline]

theorem escaped_infix_single (c : Char) : ¬ escapedNewline <:+: [c] := by
  intro h
  have := h.length_le
  simp [escapedNewline] at this

theorem escaped_infix_cons_cons (c d : Char) (rest : List Char) :
    escapedNewline <:+: c :: d :: rest ↔
      (c = '\\' ∧ d = 'n') ∨ escapedNewline <:+: d :: rest := by
  rw [List.infix_cons_iff]
  simp [escapedNewline, eq_comm]

theorem escaped_infix_cons_of_ne (c : Char) (l : List Char) (hc : c ≠ '\\') :
    escapedNewline <:+: c :: l ↔ escapedNewline <:+: l := by
  cases l with
  | nil => exact iff_of_false (escaped_infix_single c) escaped_infix_nil
  | cons d rest => simp [escaped_infix_cons_cons, hc]

theorem unescapeNewlines_head (d : Char) (rest : List Char) :
    ∃ y t, unescapeNewlines (d :: rest) = y :: t ∧ (y = d ∨ y = lineFeed) := by
  cases rest with
  | nil => exact ⟨d, [], by simp [unescapeNewlines], Or.inl rfl⟩
  | cons e rest =>
    by_cases h : d = '\\' ∧ e = 'n'
    · exact ⟨lineFeed, unescapeNewlines rest, by simp [unescapeNewlines, h], Or.inr rfl⟩
    · exact ⟨d, unescapeNewlines (e :: rest), by simp [unescapeNewlines, h], Or.inl rfl⟩

theorem unescapeNewlines_free (k : List Char) :
    ¬ escapedNewline <:+: unescapeNewlines k := by
  induction k using unescapeNewlines.induct with
  | case1 => simp [unescapeNewlines, escapedNewline]
  | case2 c => simp [unescapeNewlines, escaped_infix_single]
  | case3 c d rest h ih =>
    have hlf : lineFeed ≠ '\\' := by decide
    simp only [unescapeNewlines, h, and_self, if_true]
    rw [escaped_infix_cons_of_ne _ _ hlf]
    exact ih
  | case4 c d rest h ih =>
    simp only [unescapeNewlines, h, if_false]
    obtain ⟨y, t, hyt, hy⟩ := unescapeNewlines_head d rest
    rw [hyt] at ih ⊢
    rw [escaped_infix_cons_cons]
    rintro (⟨hc, hn⟩ | h')
    · rcases hy with hy | hy
      · exact h ⟨hc, hy ▸ hn⟩
      · rw [hy] at hn
        exact absurd hn (by decide)
    · exact ih h'

theorem unescapeNewlines_of_free (k : List Char) (hk : ¬ escapedNewline <:+: k) :
    unescapeNewlines k = k := by
  induction k using unescapeNewlines.induct with
  | case1 => simp [unescapeNewlines]
  | case2 c => simp [unescapeNewlines]
  | case3 c d rest h ih =>
    exact absurd ((escaped_infix_cons_cons c d rest).2 (Or.inl h)) hk
  | case4 c d rest h ih =>
    simp only [unescapeNewlines, h, if_false]
    rw [ih (fun h' => hk ((escaped_infix_cons_cons c d rest).2 (Or.inr h')))]

theorem unescapeNewlines_segments (k : List Char) :
    ∃ s ss, (∀ x ∈ s :: ss, ¬ escapedNewline <:+: x) ∧
      k = List.intercalate escapedNewline (s :: ss) ∧
      unescapeNewlines k = List.intercalate [lineFeed] (s :: ss) := by
  induction k using unescapeNewlines.induct with
  | case1 =>
    exact ⟨[], [], by simp [escapedNewline], by simp [intercalate_single],
      by simp [intercalate_single, unescapeNewlines]⟩
  | case2 c =>
    exact ⟨[c], [], by simp [escaped_infix_single], by simp [intercalate_single],
      by simp [intercalate_single, unescapeNewlines]⟩
  | case3 c d rest h ih =>
    obtain ⟨s, ss, hfree, hk, hu⟩ := ih
    refine ⟨[], s :: ss, ?_, ?_, ?_⟩
    · intro x hx
      rcases List.mem_cons.1 hx with hx | hx
      · rw [hx]; exact escaped_infix_nil
      · exact hfree x hx
    · rw [intercalate_cons_cons, ← hk, h.1, h.2]; rfl
    · simp only [unescapeNewlines, h, and_self, if_true]
      rw [intercalate_cons_cons, ← hu]; rfl
  | case4 c d rest h ih =>
    obtain ⟨s, ss, hfree, hk, hu⟩ := ih
    have hhead : ¬ escapedNewline <:+: c :: s := by
      cases s with
      | nil => exact escaped_infix_single c
      | cons y s' =>
        have hy : y = d := by
          cases ss with
          | nil => rw [intercalate_single] at hk; exact (List.cons.inj hk).1.symm
          | cons t ts =>
            rw [intercalate_cons_cons] at hk
            simp only [List.cons_append] at hk
            exact (List.cons.inj hk).1.symm
        rw [escaped_infix_cons_cons]
        rintro (⟨hc, hn⟩ | h')
        · exact h ⟨hc, hy ▸ hn⟩
        · exact hfree _ (List.mem_cons_self _ _) h'
    refine ⟨c :: s, ss, ?_, ?_, ?_⟩
    · intro x hx
      rcases List.mem_cons.1 hx with hx | hx
      · rw [hx]; exact hhead
      · exact hfree x (List.mem_cons_of_mem _ hx)
    · cases ss with
      | nil => rw [intercalate_single] at hk ⊢; rw [hk]
      | cons t ts =>
        rw [intercalate_cons_cons] at hk ⊢
        rw [hk]; simp
    · simp only [unescapeNewlines, h, if_false]
      cases ss with
      | nil => rw [intercalate_single] at hu ⊢; rw [hu]
      | cons t ts =>
        rw [intercalate_cons_cons] at hu ⊢
        rw [hu]; simp

/-! ## Lemmas on the operations -/

theorem signUpUser_of_created (sdk : Provider) (userDetails created : JsObj)
    (hcreated : sdk.createUser (createUserProperties userDetails) = .resolved created) :
    (signUpUser sdk userDetails).result =
      .resolved (.obj (setField created "accountLocale"
        (JsVal.or (getField userDetails "accountLocale") (.str "en")))) ∧
    (signUpUser sdk userDetails).calls =
      [.createUser (createUserProperties userDetails),
       .setCustomUserClaims (getField (setField created "accountLocale"
          (JsVal.or (getField userDetails "accountLocale") (.str "en"))) "uid")
        [("regularUser", .bool true)]] := by
  have hscope : "admin" ∈ moduleBindings := by decide
  simp only [signUpUser, signUpUserIn, hscope, if_true, hcreated]
  split
  · split <;> exact ⟨rfl, rfl⟩
  · exact ⟨rfl, rfl⟩

theorem signInTry_of_provider_failure (sdk : Provider) (userDetails e : JsObj)
    (hfail : sdk.signInWithEmailAndPassword (getField userDetails "email")
        (getField userDetails "password") = .rejected e ∨
      ∃ cred user, sdk.signInWithEmailAndPassword (getField userDetails "email")
          (getField userDetails "password") = .resolved cred ∧
        getField cred "user" = .obj user ∧
        sdk.getIdTokenResult user false = .rejected e) :
    (signInTry moduleBindings sdk userDetails).1 = .rejected e := by
  have hscope : "signInWithEmailAndPassword" ∈ moduleBindings := by decide
  have hauth : "firebaseAuthInstance" ∈ moduleBindings := by decide
  rcases hfail with hfail | ⟨cred, user, hcred, huser, htoken⟩
  · simp [signInTry, hscope, hauth, hfail]
  · simp [signInTry, hscope, hauth, hcred, huser, htoken]

theorem signInTry_settles (sdk : Provider) (userDetails : JsObj) :
    (∃ fields, (signInTry moduleBindings sdk userDetails).1 = .resolved (.obj fields) ∧
      hasField fields "idToken" = true ∧ hasField fields "error" = false) ∨
    ∃ e, (signInTry moduleBindings sdk userDetails).1 = .rejected e := by
  have hscope : "signInWithEmailAndPassword" ∈ moduleBindings := by decide
  have hauth : "firebaseAuthInstance" ∈ moduleBindings := by decide
  simp only [signInTry, hscope, hauth, if_true]
  split
  · split
    · split
      · exact Or.inl ⟨_, rfl, by simp [hasField], by simp [hasField]⟩
      · exact Or.inr ⟨_, rfl⟩
    · exact Or.inr ⟨_, rfl⟩
    · exact Or.inr ⟨_, rfl⟩
    · exact Or.inr ⟨_, rfl⟩
  · exact Or.inr ⟨_, rfl⟩

theorem signInUser_of_returned (sdk : Provider) (userDetails : JsObj) (value : JsVal)
    (hreturned : (signInTry moduleBindings sdk userDetails).1 = .resolved value) :
    (signInUser sdk userDetails).result = .resolved value := by
  unfold signInUser signInUserIn
  generalize signInTry moduleBindings sdk userDetails = r at hreturned ⊢
  obtain ⟨settled, calls⟩ := r
  simp only at hreturned
  subst hreturned
  rfl

theorem signInUser_of_thrown (sdk : Provider) (userDetails e : JsObj)
    (hthrown : (signInTry moduleBindings sdk userDetails).1 = .rejected e) :
    (signInUser sdk userDetails).result = (signInCatch userDetails e).1 ∧
    (signInUser sdk userDetails).logs = (signInCatch userDetails e).2 := by
  unfold signInUser signInUserIn
  generalize signInTry moduleBindings sdk userDetails = r at hthrown ⊢
  obtain ⟨settled, calls⟩ := r
  simp only at hthrown
  subst hthrown
  exact ⟨rfl, rfl⟩

theorem signInLogText_of_strings (userDetails e : JsObj) (email name msg : String)
    (hemail : getField userDetails "email" = .str email)
    (hplain : hasField e "toString" = false)
    (hname : getField e "name" = .str name)
    (hmsg : getField e "message" = .str msg) :
    ∃ line, signInLogText userDetails e = .ok line := by
  simp [signInLogText, hemail, JsVal.templateString, JsVal.toTemplateString, errorToString,
    hplain, errorPartString, hname, hmsg]

theorem strictEqStr_eq_false (v : JsVal) (lit : String) (hne : v ≠ .str lit) :
    v.strictEqStr lit = false := by
  cases v <;> simp [JsVal.strictEqStr]
  rename_i s
  intro hs
  exact hne (by rw [hs])

/-! ## The homepage and the private key -/

/-- C9 (as stated, refuted): with `NODE_ENV` set to the empty string the variable is
set, yet the handler of `GET /` answers `Hello not yet set world!` and not the message
built from the variable's value. -/
theorem homepage_empty_NODE_ENV :
    envGet [("NODE_ENV", "")] "NODE_ENV" = .str "" ∧
    (homepage [("NODE_ENV", "")] Response.fresh).body =
      some (.obj [("message", .str "Hello not yet set world!")]) ∧
    (homepage [("NODE_ENV", "")] Response.fresh).body ≠
      some (.obj [("message", .str ("Hello " ++ "" ++ " world!"))]) := by
  refine ⟨by simp [envGet], ?_, ?_⟩ <;>
    simp [homepage, envGet, JsVal.or, JsVal.truthy, Response.json, JsVal.toTemplateString]

/-- C9 (amended): for every environment the handler of `GET /` answers with status 200
and the body `{message: "Hello <environment> world!"}`, whose message starts with
`Hello`; `<environment>` is the value of `NODE_ENV` when that is set and not empty, and
`not yet set` when it is unset or empty. -/
theorem homepage_hello (env : ProcessEnv) :
    (homepage env Response.fresh).statusCode = 200 ∧
    ∃ target : String,
      (homepage env Response.fresh).body =
        some (.obj [("message", .str ("Hello " ++ target ++ " world!"))]) ∧
      "Hello".data <+: ("Hello " ++ target ++ " world!").data ∧
      "Hello".data <:+: ("Hello " ++ target ++ " world!").data ∧
      (∀ v, envGet env "NODE_ENV" = .str v → v ≠ "" → target = v) ∧
      (envGet env "NODE_ENV" = .undefined → target = "not yet set") ∧
      (envGet env "NODE_ENV" = .str "" → target = "not yet set") := by
  refine ⟨rfl, ?_⟩
  have hpre : ∀ t : String, "Hello".data <+: ("Hello " ++ t ++ " world!").data := by
    intro t
    refine ⟨' ' :: (t.data ++ " world!".data), ?_⟩
    simp [String.data_append]
  rcases envGet_cases env "NODE_ENV" with hu | ⟨v, hv⟩
  · refine ⟨"not yet set", ?_, hpre _, (hpre _).isInfix, ?_, ?_, ?_⟩
    · simp [homepage, hu, JsVal.or, JsVal.truthy, Response.json, JsVal.toTemplateString]
    · intro v hv; rw [hu] at hv; cases hv
    · intro _; rfl
    · intro _; rfl
  · by_cases hempty : v = ""
    · refine ⟨"not yet set", ?_, hpre _, (hpre _).isInfix, ?_, ?_, ?_⟩
      · simp [homepage, hv, hempty, JsVal.or, JsVal.truthy, Response.json,
          JsVal.toTemplateString]
      · intro w hw hne
        rw [hv] at hw
        exact absurd (hempty ▸ (JsVal.str.inj hw).symm) hne
      · intro _; rfl
      · intro _; rfl
    · refine ⟨v, ?_, hpre _, (hpre _).isInfix, ?_, ?_, ?_⟩
      · simp [homepage, hv, hempty, JsVal.or, JsVal.truthy, Response.json,
          JsVal.toTemplateString]
      · intro w hw _
        rw [hv] at hw
        exact JsVal.str.inj hw
      · intro hu; rw [hv] at hu; cases hu
      · intro hw
        rw [hv] at hw
        exact absurd (JsVal.str.inj hw) hempty

/-- C9 (amended) at `NODE_ENV=test`. -/
theorem homepage_hello_witness :
    (homepage [("NODE_ENV", "test")] Response.fresh).statusCode = 200 ∧
    (homepage [("NODE_ENV", "test")] Response.fresh).body =
      some (.obj [("message", .str ("Hello " ++ "test" ++ " world!"))]) := by
  obtain ⟨hstatus, target, hbody, _, _, hset, _, _⟩ := homepage_hello [("NODE_ENV", "test")]
  have htarget : target = "test" := hset "test" (by simp [envGet]) (by decide)
  rw [htarget] at hbody
  exact ⟨hstatus, hbody⟩

/-- C10: the private key handed to the credential has no backslash-n left; the key
splits at its backslash-n occurrences into pieces that are kept, in order, with a line
feed between them; a key without backslash-n is passed unchanged; and un-escaping twice
is un-escaping once. -/
theorem privateKey_unescaped (k : String) :
    ¬ escapedNewline <:+: (privateKey k).data ∧
    (∃ s ss, (∀ x ∈ s :: ss, ¬ escapedNewline <:+: x) ∧
      k.data = List.intercalate escapedNewline (s :: ss) ∧
      (privateKey k).data = List.intercalate [lineFeed] (s :: ss)) ∧
    (¬ escapedNewline <:+: k.data → privateKey k = k) ∧
    privateKey (privateKey k) = privateKey k := by
  refine ⟨unescapeNewlines_free k.data, unescapeNewlines_segments k.data, ?_, ?_⟩
  · intro hk
    show String.mk (unescapeNewlines k.data) = k
    rw [unescapeNewlines_of_free k.data hk]
  · show String.mk (unescapeNewlines (unescapeNewlines k.data)) = String.mk _
    rw [unescapeNewlines_of_free _ (unescapeNewlines_free k.data)]

/-- C10 at a PEM-like key with two escaped newlines, and at its un-escaped form. -/
theorem privateKey_unescaped_witness :
    privateKey "-----BEGIN-----\\nMIIE\\n-----END-----" = "-----BEGIN-----\nMIIE\n-----END-----" ∧
    privateKey "-----BEGIN-----\nMIIE\n-----END-----" = "-----BEGIN-----\nMIIE\n-----END-----" := by
  refine ⟨by decide, (privateKey_unescaped _).2.2.1 (by decide)⟩

/-! ## Sign-in -/

/-- C1: when the credential sign-in is rejected with an error whose code is
`auth/wrong-password` or `auth/invalid-email`, `signInUser` resolves with exactly
`{error: "Incorrect sign-in information provided."}`: one property, no `errorRaw`,
the same value for both codes, whatever the request and the rest of the error. -/
theorem signInUser_incorrect_credentials (sdk : Provider) (userDetails e : JsObj)
    (hfail : sdk.signInWithEmailAndPassword (getField userDetails "email")
      (getField userDetails "password") = .rejected e)
    (hcode : getField e "code" = .str "auth/wrong-password" ∨
      getField e "code" = .str "auth/invalid-email") :
    (signInUser sdk userDetails).result =
      .resolved (.obj [("error", .str "Incorrect sign-in information provided.")]) := by
  have hscope : "signInWithEmailAndPassword" ∈ moduleBindings := by decide
  have hauth : "firebaseAuthInstance" ∈ moduleBindings := by decide
  rcases hcode with hcode | hcode <;>
    simp [signInUser, signInUserIn, signInTry, hscope, hauth, hfail, signInCatch, hcode,
      JsVal.strictEqStr]

/-- C1 at a wrong-password rejection. -/
theorem signInUser_incorrect_credentials_witness :
    (signInUser (failingProvider (codedError "auth/wrong-password")) sampleSignIn).result =
      .resolved (.obj [("error", .str "Incorrect sign-in information provided.")]) :=
  signInUser_incorrect_credentials (failingProvider (codedError "auth/wrong-password"))
    sampleSignIn (codedError "auth/wrong-password") rfl (Or.inl (by simp [codedError, getField]))

/-- C2 (as stated, refuted): a sign-in request whose `email` is an object with an own
property `toString`, on a provider that fails with an error without a code. Building
the log line of line 69 throws inside the `catch` block, so `signInUser` rejects with
that TypeError and does not return `{error: ..., errorRaw: e}`. -/
theorem signInUser_unprintable_email :
    (failingProvider uncodedError).signInWithEmailAndPassword
      (getField unprintableSignIn "email") (getField unprintableSignIn "password") =
      .rejected uncodedError ∧
    getField uncodedError "code" = .undefined ∧
    (signInUser (failingProvider uncodedError) unprintableSignIn).result =
      .rejected conversionError ∧
    (signInUser (failingProvider uncodedError) unprintableSignIn).result ≠
      .resolved (.obj [("error", .str "Sign In Failed For Some Uncaught Reason"),
        ("errorRaw", .obj uncodedError)]) := by
  have hthrown := signInUser_of_thrown (failingProvider uncodedError) unprintableSignIn
    uncodedError (signInTry_of_provider_failure _ _ _ (Or.inl rfl))
  have hres : (signInUser (failingProvider uncodedError) unprintableSignIn).result =
      .rejected conversionError := by
    rw [hthrown.1]; rfl
  refine ⟨rfl, rfl, hres, ?_⟩
  rw [hres]
  intro h
  cases h

/-- C2 (amended): when the provider fails, in the credential sign-in or in the fetch of
the ID token, with an error `e` whose code is neither `auth/wrong-password` nor
`auth/invalid-email`, or that has no code, and the string conversions of the log line of
line 69 (of the request's `email` and of `e`) succeed, `signInUser` resolves with
`{error: "Sign In Failed For Some Uncaught Reason", errorRaw: e}`. -/
theorem signInUser_uncaught_reason (sdk : Provider) (userDetails e : JsObj) (line : String)
    (hfail : sdk.signInWithEmailAndPassword (getField userDetails "email")
        (getField userDetails "password") = .rejected e ∨
      ∃ cred user, sdk.signInWithEmailAndPassword (getField userDetails "email")
          (getField userDetails "password") = .resolved cred ∧
        getField cred "user" = .obj user ∧
        sdk.getIdTokenResult user false = .rejected e)
    (hwrong : getField e "code" ≠ .str "auth/wrong-password")
    (hinvalid : getField e "code" ≠ .str "auth/invalid-email")
    (hline : signInLogText userDetails e = .ok line) :
    (signInUser sdk userDetails).result =
      .resolved (.obj [("error", .str "Sign In Failed For Some Uncaught Reason"),
        ("errorRaw", .obj e)]) := by
  have hthrown := signInUser_of_thrown sdk userDetails e
    (signInTry_of_provider_failure sdk userDetails e hfail)
  have h1 := strictEqStr_eq_false _ _ hinvalid
  have h2 := strictEqStr_eq_false _ _ hwrong
  rw [hthrown.1]
  simp [signInCatch, h1, h2, hline]

/-- C2 (amended) at a rejection of the credential sign-in that carries no code. -/
theorem signInUser_uncaught_reason_witness :
    (signInUser (failingProvider uncodedError) sampleSignIn).result =
      .resolved (.obj [("error", .str "Sign In Failed For Some Uncaught Reason"),
        ("errorRaw", .obj uncodedError)]) :=
  signInUser_uncaught_reason (failingProvider uncodedError) sampleSignIn uncodedError
    "User ada@example.com failed sign in: Error: network request failed" (Or.inl rfl)
    (by simp [uncodedError, getField]) (by simp [uncodedError, getField]) rfl

/-! ## Registration -/

/-- C5 (as stated, refuted): a registration request that provides the empty string as
`accountLocale` gets a record whose `accountLocale` is `"en"`, not the empty string. -/
theorem signUpUser_empty_locale :
    getField (sampleRegistration (some "")) "accountLocale" = .str "" ∧
    (signUpUser acceptingProvider (sampleRegistration (some ""))).result =
      .resolved (.obj (setField sampleRecord "accountLocale" (.str "en"))) ∧
    (signUpUser acceptingProvider (sampleRegistration (some ""))).result ≠
      .resolved (.obj (setField sampleRecord "accountLocale" (.str ""))) := by
  have hres := (signUpUser_of_created acceptingProvider (sampleRegistration (some ""))
    sampleRecord rfl).1
  refine ⟨by simp [sampleRegistration, getField], ?_, ?_⟩ <;> rw [hres] <;>
    simp [sampleRegistration, getField, JsVal.or, JsVal.truthy, setField, sampleRecord]

/-- C5 (amended): when account creation succeeds with record `created`, `signUpUser`
resolves with that record with `accountLocale` attached and every other property
untouched; `accountLocale` is the request's when that is a non-empty string, and `"en"`
when the request has none or has the empty string. -/
theorem signUpUser_accountLocale (sdk : Provider) (userDetails created : JsObj)
    (hcreated : sdk.createUser (createUserProperties userDetails) = .resolved created) :
    ∃ locale : JsVal,
      (signUpUser sdk userDetails).result =
        .resolved (.obj (setField created "accountLocale" locale)) ∧
      getField (setField created "accountLocale" locale) "accountLocale" = locale ∧
      (∀ k, k ≠ "accountLocale" →
        getField (setField created "accountLocale" locale) k = getField created k) ∧
      (∀ s, getField userDetails "accountLocale" = .str s → s ≠ "" → locale = .str s) ∧
      (getField userDetails "accountLocale" = .undefined → locale = .str "en") ∧
      (getField userDetails "accountLocale" = .str "" → locale = .str "en") := by
  refine ⟨JsVal.or (getField userDetails "accountLocale") (.str "en"),
    (signUpUser_of_created sdk userDetails created hcreated).1,
    getField_setField_same _ _ _, fun k hk => getField_setField_other _ _ _ _ hk, ?_, ?_, ?_⟩
  · intro s hs hne
    simp [JsVal.or, JsVal.truthy, hs, hne]
  · intro hu
    simp [JsVal.or, JsVal.truthy, hu]
  · intro hs
    simp [JsVal.or, JsVal.truthy, hs]

/-- C5 (amended) at a request whose `accountLocale` is `"fr"`. -/
theorem signUpUser_accountLocale_witness :
    ∃ locale : JsVal,
      (signUpUser acceptingProvider (sampleRegistration (some "fr"))).result =
        .resolved (.obj (setField sampleRecord "accountLocale" locale)) ∧
      locale = .str "fr" := by
  obtain ⟨locale, hres, _, _, hstr, _, _⟩ :=
    signUpUser_accountLocale acceptingProvider (sampleRegistration (some "fr")) sampleRecord rfl
  exact ⟨locale, hres, hstr "fr" (by simp [sampleRegistration, getField]) (by decide)⟩

/-- C6: when account creation is rejected with error `e`, `signUpUser` resolves with
exactly `{error: e}`, which is no user record with `accountLocale` attached, and the
only provider call it issues is `createUser`: no claim assignment. -/
theorem signUpUser_creation_rejected (sdk : Provider) (userDetails e : JsObj)
    (hfail : sdk.createUser (createUserProperties userDetails) = .rejected e) :
    (signUpUser sdk userDetails).result = .resolved (.obj [("error", .obj e)]) ∧
    (∀ record locale, (signUpUser sdk userDetails).result ≠
      .resolved (.obj (setField record "accountLocale" locale))) ∧
    (signUpUser sdk userDetails).calls = [.createUser (createUserProperties userDetails)] ∧
    (∀ uid claims, Call.setCustomUserClaims uid claims ∉ (signUpUser sdk userDetails).calls) := by
  have hscope : "admin" ∈ moduleBindings := by decide
  have hres : (signUpUser sdk userDetails).result = .resolved (.obj [("error", .obj e)]) := by
    simp [signUpUser, signUpUserIn, hscope, hfail]
  have hcalls : (signUpUser sdk userDetails).calls =
      [.createUser (createUserProperties userDetails)] := by
    simp [signUpUser, signUpUserIn, hscope, hfail]
  refine ⟨hres, ?_, hcalls, ?_⟩
  · intro record locale heq
    rw [hres] at heq
    have hobj : [("error", JsVal.obj e)] = setField record "accountLocale" locale :=
      JsVal.obj.inj (Settled.resolved.inj heq)
    have := hasField_setField_same record "accountLocale" locale
    rw [← hobj] at this
    simp [hasField] at this
  · intro uid claims hmem
    rw [hcalls] at hmem
    simp at hmem

/-- C6 at a duplicate-email rejection. -/
theorem signUpUser_creation_rejected_witness :
    (signUpUser (failingProvider (codedError "auth/email-already-exists"))
        (sampleRegistration none)).result =
      .resolved (.obj [("error", .obj (codedError "auth/email-already-exists"))]) :=
  (signUpUser_creation_rejected (failingProvider (codedError "auth/email-already-exists"))
    (sampleRegistration none) (codedError "auth/email-already-exists") rfl).1

/-- C7: when account creation succeeds, the value `signUpUser` resolves with is the
created record with `accountLocale` attached, whatever the claim-assignment call
`setCustomUserClaims(uid, {regularUser: true})` does: replacing that call by any other
behaviour, succeeding or rejecting, leaves the call issued and the result the same. -/
theorem signUpUser_claims_frame (sdk : Provider) (userDetails created : JsObj)
    (claimStep : JsVal → JsObj → Settled Unit)
    (hcreated : sdk.createUser (createUserProperties userDetails) = .resolved created) :
    (signUpUser { sdk with setCustomUserClaims := claimStep } userDetails).result =
      .resolved (.obj (setField created "accountLocale"
        (JsVal.or (getField userDetails "accountLocale") (.str "en")))) ∧
    (signUpUser { sdk with setCustomUserClaims := claimStep } userDetails).result =
      (signUpUser sdk userDetails).result ∧
    (signUpUser { sdk with setCustomUserClaims := claimStep } userDetails).calls =
      [.createUser (createUserProperties userDetails),
       .setCustomUserClaims (getField (setField created "accountLocale"
          (JsVal.or (getField userDetails "accountLocale") (.str "en"))) "uid")
        [("regularUser", .bool true)]] := by
  have h1 := signUpUser_of_created { sdk with setCustomUserClaims := claimStep } userDetails
    created hcreated
  exact ⟨h1.1, h1.1.trans (signUpUser_of_created sdk userDetails created hcreated).1.symm, h1.2⟩

/-- C7 at a provider whose claim assignment succeeds, with the call replaced by one
that is rejected. -/
theorem signUpUser_claims_frame_witness :
    (signUpUser { acceptingProvider with
        setCustomUserClaims := fun _ _ => .rejected (codedError "auth/internal-error") }
      (sampleRegistration none)).result =
    (signUpUser acceptingProvider (sampleRegistration none)).result :=
  (signUpUser_claims_frame acceptingProvider (sampleRegistration none) sampleRecord
    (fun _ _ => .rejected (codedError "auth/internal-error")) rfl).2.1

/-! ## Session validation -/

/-- With the identifier `firebaseAdmin` bound to the admin SDK, an accepted token gives
`{isValid: true, uid, fullDecodedToken}` and the verification is asked to check
revocation. -/
theorem validateUserSessionIn_bound_accepted (scope : List String) (sdk : Provider)
    (sessionDetails decoded : JsObj) (hbound : "firebaseAdmin" ∈ scope)
    (haccept : sdk.verifyIdToken (getField sessionDetails "idToken") true = .resolved decoded) :
    (validateUserSessionIn scope sdk sessionDetails).result =
      .resolved (.obj [("isValid", .bool true), ("uid", getField decoded "uid"),
        ("fullDecodedToken", .obj decoded)]) ∧
    (validateUserSessionIn scope sdk sessionDetails).calls =
      [.verifyIdToken (getField sessionDetails "idToken") true] := by
  simp [validateUserSessionIn, hbound, haccept]

/-- With the identifier `firebaseAdmin` bound to the admin SDK, a rejected token gives
`{error: e}` for every code of `e` whose comparison and whose error's string conversion
succeed; only the logged line depends on the code. -/
theorem validateUserSessionIn_bound_rejected (scope : List String) (sdk : Provider)
    (sessionDetails e : JsObj) (revoked : Bool) (text : String)
    (hbound : "firebaseAdmin" ∈ scope)
    (hreject : sdk.verifyIdToken (getField sessionDetails "idToken") true = .rejected e)
    (hcompare : (getField e "code").looseEqStr "auth/id-token-revoked" = .ok revoked)
    (htext : errorToString e = .ok text) :
    (validateUserSessionIn scope sdk sessionDetails).result =
      .resolved (.obj [("error", .obj e)]) := by
  simp [validateUserSessionIn, hbound, hreject, hcompare, htext]

/-- C3 (the code at an accepted token): the provider accepts the token of the sample
session with `checkRevoked = true`, yet `validateUserSession` never asks it: the
identifier `firebaseAdmin` is not bound in `UserFunctions.js` (the SDK is bound as
`admin`), so the promise is rejected with a ReferenceError instead of resolving with
`{isValid: true, uid, fullDecodedToken}`. -/
theorem validateUserSession_accepted_token :
    acceptingProvider.verifyIdToken (getField sampleSession "idToken") true =
      .resolved sampleToken ∧
    (validateUserSession acceptingProvider sampleSession).result =
      .rejected (referenceError "firebaseAdmin") ∧
    (validateUserSession acceptingProvider sampleSession).result ≠
      .resolved (.obj [("isValid", .bool true), ("uid", getField sampleToken "uid"),
        ("fullDecodedToken", .obj sampleToken)]) ∧
    (validateUserSession acceptingProvider sampleSession).calls = [] := by
  have hscope : "firebaseAdmin" ∉ moduleBindings := by decide
  refine ⟨rfl, ?_, ?_, ?_⟩ <;> simp [validateUserSession, validateUserSessionIn, hscope]

/-- C4 (the code at a revoked token): the provider rejects the token of the sample
session as revoked with error `e`, yet `validateUserSession` does not resolve with
`{error: e}`: its promise is rejected with a ReferenceError on the unbound identifier
`firebaseAdmin`, before any provider call and before any line is logged. -/
theorem validateUserSession_revoked_token :
    (failingProvider (codedError "auth/id-token-revoked")).verifyIdToken
      (getField sampleSession "idToken") true =
      .rejected (codedError "auth/id-token-revoked") ∧
    (validateUserSession (failingProvider (codedError "auth/id-token-revoked"))
      sampleSession).result = .rejected (referenceError "firebaseAdmin") ∧
    (validateUserSession (failingProvider (codedError "auth/id-token-revoked"))
      sampleSession).result ≠
      .resolved (.obj [("error", .obj (codedError "auth/id-token-revoked"))]) ∧
    (validateUserSession (failingProvider (codedError "auth/id-token-revoked"))
      sampleSession).logs = [] := by
  have hscope : "firebaseAdmin" ∉ moduleBindings := by decide
  refine ⟨rfl, ?_, ?_, ?_⟩ <;> simp [validateUserSession, validateUserSessionIn, hscope]

/-- C8 (the code on every input): `validateUserSession` rejects to its caller on every
request and every provider, with the ReferenceError on `firebaseAdmin`, and never
resolves with any value. `signUpUser` always resolves with an object. `signInUser`
resolves with an object that has exactly one of the properties `error` and `idToken`,
unless its `try` block threw an error and building the log line of line 69 for it throws,
in which case it rejects with what was thrown. -/
theorem operations_settlement (sdk : Provider) (request : JsObj) :
    (validateUserSession sdk request).result = .rejected (referenceError "firebaseAdmin") ∧
    (∀ value, (validateUserSession sdk request).result ≠ .resolved value) ∧
    (∃ value, (signUpUser sdk request).result = .resolved (.obj value)) ∧
    ((∃ value, (signInUser sdk request).result = .resolved (.obj value) ∧
        hasField value "error" = !hasField value "idToken") ∨
      ∃ e thrown, (signInTry moduleBindings sdk request).1 = .rejected e ∧
        signInLogText request e = .error thrown ∧
        (signInUser sdk request).result = .rejected thrown) := by
  have hadmin : "admin" ∈ moduleBindings := by decide
  have hscope : "firebaseAdmin" ∉ moduleBindings := by decide
  refine ⟨?_, ?_, ?_, ?_⟩
  · simp [validateUserSession, validateUserSessionIn, hscope]
  · simp [validateUserSession, validateUserSessionIn, hscope]
  · cases hcreate : sdk.createUser (createUserProperties request) with
    | resolved created => exact ⟨_, (signUpUser_of_created sdk request created hcreate).1⟩
    | rejected e =>
      exact ⟨[("error", .obj e)], by simp [signUpUser, signUpUserIn, hadmin, hcreate]⟩
  · rcases signInTry_settles sdk request with ⟨fields, hreturned, htoken, herror⟩ | ⟨e, hthrown⟩
    · exact Or.inl ⟨fields, signInUser_of_returned sdk request _ hreturned,
        by rw [htoken, herror]; rfl⟩
    · have hcatch := (signInUser_of_thrown sdk request e hthrown).1
      by_cases hcode : ((getField e "code").strictEqStr "auth/invalid-email" ||
          (getField e "code").strictEqStr "auth/wrong-password") = true
      · refine Or.inl ⟨[("error", .str "Incorrect sign-in information provided.")], ?_, ?_⟩
        · rw [hcatch]; simp only [signInCatch, hcode, if_true]
        · simp [hasField]
      · cases hline : signInLogText request e with
        | ok line =>
          refine Or.inl ⟨[("error", .str "Sign In Failed For Some Uncaught Reason"),
            ("errorRaw", .obj e)], ?_, ?_⟩
          · rw [hcatch]; simp only [signInCatch, hcode, hline]; rfl
          · simp [hasField]
        | error thrown =>
          refine Or.inr ⟨e, thrown, hthrown, hline, ?_⟩
          rw [hcatch]; simp only [signInCatch, hcode, hline]; rfl

end IdentityGateway
